import Mathlib

/-!
Verification development for the hono-api-key repository.

Shallow embedding of the credential lifecycle manager (src/manager.ts),
the in-memory storage adapter (src/adapters/memory.ts) and the KV storage
adapter (src/adapters/kv.ts).

Modelling conventions:
- Timestamps (ISO date strings in the source) are modelled as integers,
  milliseconds since the epoch; the translation is order preserving, so
  comparisons such as new Date(a) < new Date(b) become a < b.
- JavaScript Map objects are modelled as functions String -> Option alpha;
  the adapters never iterate a Map, only get / set / delete it.
- JavaScript Set objects of ids (iterated by the adapters) are modelled as
  duplicate-free lists in insertion order.
- async methods carry no real concurrency in the semantics of interest;
  they are modelled as pure state-passing functions.  A rejected promise
  (thrown error) is modelled with Except String.
- Opaque attribute bags (permissions, metadata) are modelled as
  association lists of strings; the core never interprets them.
-/

/-- Rate limit policy, from src/types.ts (RateLimitConfig). -/
structure RateLimitConfig where
  windowMs : Int
  maxRequests : Nat
  deriving DecidableEq, Repr

/-- The persisted credential record, from src/types.ts (ApiKeyRecord). -/
structure ApiKeyRecord where
  id : String
  key : String
  ownerId : String
  name : String
  permissions : List (String × String)
  rateLimit : Option RateLimitConfig
  isActive : Bool
  createdAt : Int
  lastUsedAt : Option Int
  expiresAt : Option Int
  metadata : List (String × String)
  deriving DecidableEq, Repr

/-- A credential record with the secret stripped, from src/types.ts
(SanitizedApiKeyRecord = Omit of ApiKeyRecord without the key field). -/
structure SanitizedApiKeyRecord where
  id : String
  ownerId : String
  name : String
  permissions : List (String × String)
  rateLimit : Option RateLimitConfig
  isActive : Bool
  createdAt : Int
  lastUsedAt : Option Int
  expiresAt : Option Int
  metadata : List (String × String)
  deriving DecidableEq, Repr

/-- Destructuring that drops the key field, as in
const \x7b key: _hidden, ...rest \x7d = record. -/
def sanitize (r : ApiKeyRecord) : SanitizedApiKeyRecord :=
  { id := r.id, ownerId := r.ownerId, name := r.name
    permissions := r.permissions, rateLimit := r.rateLimit
    isActive := r.isActive, createdAt := r.createdAt
    lastUsedAt := r.lastUsedAt, expiresAt := r.expiresAt
    metadata := r.metadata }

/-- Per-credential rate limiting state, from the rateLimits map value type
in src/adapters/memory.ts (and the JSON state in src/adapters/kv.ts). -/
structure RateLimitState where
  requests : List Int
  windowStart : Int
  deriving DecidableEq, Repr

/-- Finite map model of a JavaScript Map: set. -/
def mapSet {α : Type} (m : String → Option α) (k : String) (v : α) :
    String → Option α :=
  fun q => if q = k then some v else m q

/-- Finite map model of a JavaScript Map: delete. -/
def mapDel {α : Type} (m : String → Option α) (k : String) :
    String → Option α :=
  fun q => if q = k then none else m q

/-- JavaScript Set.add on a list model: append when absent. -/
def setAdd (l : List String) (x : String) : List String :=
  if x ∈ l then l else l ++ [x]

/-- JavaScript Set.delete on a list model: remove the element. -/
def setErase (l : List String) (x : String) : List String :=
  l.filter (fun y => y ≠ x)

/-- new Set(array) in JavaScript: deduplicate keeping first occurrences. -/
def dedupSet (l : List String) : List String :=
  l.foldl (fun acc x => setAdd acc x) []

/-- State of the in-memory adapter, from src/adapters/memory.ts: the four
private Map fields of class MemoryAdapter. -/
structure MemoryAdapter where
  keysById : String → Option ApiKeyRecord
  keyValueToId : String → Option String
  ownerIdToKeyIds : String → Option (List String)
  rateLimits : String → Option RateLimitState

/-- A freshly constructed MemoryAdapter: all maps empty. -/
def emptyMemory : MemoryAdapter :=
  { keysById := fun _ => none, keyValueToId := fun _ => none
    ownerIdToKeyIds := fun _ => none, rateLimits := fun _ => none }

/-- MemoryAdapter.saveKey: index the record under its id, its secret value
and its owner (creating the owner set when absent). -/
def MemoryAdapter.saveKey (st : MemoryAdapter) (apiKey : ApiKeyRecord) :
    MemoryAdapter :=
  { st with
    keysById := mapSet st.keysById apiKey.id apiKey
    keyValueToId := mapSet st.keyValueToId apiKey.key apiKey.id
    ownerIdToKeyIds :=
      mapSet st.ownerIdToKeyIds apiKey.ownerId
        (setAdd ((st.ownerIdToKeyIds apiKey.ownerId).getD []) apiKey.id) }

/-- MemoryAdapter.getKeyById. -/
def MemoryAdapter.getKeyById (st : MemoryAdapter) (keyId : String) :
    Option ApiKeyRecord :=
  st.keysById keyId

/-- MemoryAdapter.getKeyByValue.  The source tests the mapped id for
truthiness (id ? ... : null), so an id equal to the empty string behaves
like a missing entry. -/
def MemoryAdapter.getKeyByValue (st : MemoryAdapter) (keyValue : String) :
    Option ApiKeyRecord :=
  match st.keyValueToId keyValue with
  | none => none
  | some id => if id = "" then none else st.keysById id

/-- MemoryAdapter.getKeysByownerId: resolve the owner set through the
primary index, skipping ids with no record. -/
def MemoryAdapter.getKeysByownerId (st : MemoryAdapter) (ownerId : String) :
    List ApiKeyRecord :=
  match st.ownerIdToKeyIds ownerId with
  | none => []
  | some ids => ids.filterMap st.keysById

/-- MemoryAdapter.updateKey: replace the stored record; retire the old
secret index entry when the secret changed; move owner set membership when
the owner changed. -/
def MemoryAdapter.updateKey (st : MemoryAdapter) (keyId : String)
    (updatedKey : ApiKeyRecord) : MemoryAdapter × Option ApiKeyRecord :=
  match st.keysById keyId with
  | none => (st, none)
  | some existing =>
    let st1 := { st with keysById := mapSet st.keysById keyId updatedKey }
    let st2 :=
      if existing.key ≠ updatedKey.key then
        { st1 with keyValueToId := mapDel st1.keyValueToId existing.key }
      else st1
    let st3 := { st2 with
      keyValueToId := mapSet st2.keyValueToId updatedKey.key keyId }
    let st4 :=
      if existing.ownerId ≠ updatedKey.ownerId then
        let afterPrev := { st3 with
          ownerIdToKeyIds :=
            match st3.ownerIdToKeyIds existing.ownerId with
            | none => st3.ownerIdToKeyIds
            | some prevSet =>
              mapSet st3.ownerIdToKeyIds existing.ownerId
                (setErase prevSet keyId) }
        { afterPrev with
          ownerIdToKeyIds :=
            mapSet afterPrev.ownerIdToKeyIds updatedKey.ownerId
              (setAdd ((afterPrev.ownerIdToKeyIds updatedKey.ownerId).getD [])
                keyId) }
      else st3
    (st4, some updatedKey)

/-- MemoryAdapter.deleteKey: purge all three indices and the rate limit
state; the owner set entry itself is removed when it becomes empty. -/
def MemoryAdapter.deleteKey (st : MemoryAdapter) (keyId : String) :
    MemoryAdapter × Bool :=
  match st.keysById keyId with
  | none => (st, false)
  | some existing =>
    let owners :=
      match st.ownerIdToKeyIds existing.ownerId with
      | none => st.ownerIdToKeyIds
      | some s =>
        let s' := setErase s keyId
        if s'.isEmpty then mapDel st.ownerIdToKeyIds existing.ownerId
        else mapSet st.ownerIdToKeyIds existing.ownerId s'
    ({ keysById := mapDel st.keysById keyId
       keyValueToId := mapDel st.keyValueToId existing.key
       ownerIdToKeyIds := owners
       rateLimits := mapDel st.rateLimits keyId }, true)

/-- MemoryAdapter.checkRateLimit at clock reading now (Date.now()): create
the state on first sight; clear it when more than windowMs elapsed since
windowStart; filter to timestamps strictly within the trailing window;
deny when the filtered count reaches maxRequests, otherwise record now and
admit. -/
def MemoryAdapter.checkRateLimit (st : MemoryAdapter) (keyId : String)
    (rateLimit : RateLimitConfig) (now : Int) : MemoryAdapter × Bool :=
  let state := (st.rateLimits keyId).getD { requests := [], windowStart := now }
  let state :=
    if now - state.windowStart > rateLimit.windowMs then
      { requests := [], windowStart := now }
    else state
  let kept := state.requests.filter (fun ts => now - ts < rateLimit.windowMs)
  if kept.length ≥ rateLimit.maxRequests then
    let newState : RateLimitState :=
      { requests := kept, windowStart := state.windowStart }
    ({ st with rateLimits := mapSet st.rateLimits keyId newState }, false)
  else
    let newState : RateLimitState :=
      { requests := kept ++ [now], windowStart := state.windowStart }
    ({ st with rateLimits := mapSet st.rateLimits keyId newState }, true)

/-!
KV adapter, from src/adapters/kv.ts.  The underlying KV namespace stores
strings under keys of the shapes ns+id:..., ns+value:..., ns+owner:...,
ns+rate:...; these four key shapes never collide, so the store is modelled
as four disjoint maps, with JSON encoding and decoding (a bijection on the
values the adapter writes) elided. -/

/-- State of the KV adapter: the four disjoint namespaces of the backing
key-value store. -/
structure KvAdapter where
  idStore : String → Option ApiKeyRecord
  valueStore : String → Option String
  ownerStore : String → Option (List String)
  rateStore : String → Option RateLimitState

/-- A KV namespace with nothing stored. -/
def emptyKv : KvAdapter :=
  { idStore := fun _ => none, valueStore := fun _ => none
    ownerStore := fun _ => none, rateStore := fun _ => none }

/-- KvAdapter.saveKey: put the record under its id, the id under the
secret value, and add the id to the owner list (read through new Set). -/
def KvAdapter.saveKey (st : KvAdapter) (apiKey : ApiKeyRecord) : KvAdapter :=
  let ownerList := dedupSet ((st.ownerStore apiKey.ownerId).getD [])
  { st with
    idStore := mapSet st.idStore apiKey.id apiKey
    valueStore := mapSet st.valueStore apiKey.key apiKey.id
    ownerStore :=
      mapSet st.ownerStore apiKey.ownerId (setAdd ownerList apiKey.id) }

/-- KvAdapter.getKeyById. -/
def KvAdapter.getKeyById (st : KvAdapter) (keyId : String) :
    Option ApiKeyRecord :=
  st.idStore keyId

/-- KvAdapter.getKeyByValue.  As in the memory adapter, the id read from
the store is tested for truthiness, so an empty id reads as missing. -/
def KvAdapter.getKeyByValue (st : KvAdapter) (keyValue : String) :
    Option ApiKeyRecord :=
  match st.valueStore keyValue with
  | none => none
  | some id => if id = "" then none else st.idStore id

/-- KvAdapter.getKeysByownerId: read the owner list (default empty),
resolve every id through the primary namespace, and keep the hits. -/
def KvAdapter.getKeysByownerId (st : KvAdapter) (ownerId : String) :
    List ApiKeyRecord :=
  ((st.ownerStore ownerId).getD []).filterMap st.idStore

/-- KvAdapter.updateKey: retire the old secret mapping when the secret
changed, move owner membership when the owner changed, then overwrite the
record. -/
def KvAdapter.updateKey (st : KvAdapter) (keyId : String)
    (updatedKey : ApiKeyRecord) : KvAdapter × Option ApiKeyRecord :=
  match st.idStore keyId with
  | none => (st, none)
  | some existing =>
    let st1 :=
      if existing.key ≠ updatedKey.key then
        let afterDel := { st with
          valueStore := mapDel st.valueStore existing.key }
        { afterDel with
          valueStore := mapSet afterDel.valueStore updatedKey.key keyId }
      else st
    let st2 :=
      if existing.ownerId ≠ updatedKey.ownerId then
        let oldList := dedupSet ((st1.ownerStore existing.ownerId).getD [])
        let afterOld := { st1 with
          ownerStore :=
            mapSet st1.ownerStore existing.ownerId (setErase oldList keyId) }
        let newList :=
          dedupSet ((afterOld.ownerStore updatedKey.ownerId).getD [])
        { afterOld with
          ownerStore :=
            mapSet afterOld.ownerStore updatedKey.ownerId
              (setAdd newList keyId) }
      else st1
    ({ st2 with idStore := mapSet st2.idStore keyId updatedKey },
     some updatedKey)

/-- KvAdapter.deleteKey: delete the id entry, the secret mapping, the rate
state, and rewrite the owner list without the id. -/
def KvAdapter.deleteKey (st : KvAdapter) (keyId : String) :
    KvAdapter × Bool :=
  match st.idStore keyId with
  | none => (st, false)
  | some existing =>
    let ownerList := dedupSet ((st.ownerStore existing.ownerId).getD [])
    ({ idStore := mapDel st.idStore keyId
       valueStore := mapDel st.valueStore existing.key
       ownerStore :=
         mapSet st.ownerStore existing.ownerId (setErase ownerList keyId)
       rateStore := mapDel st.rateStore keyId }, true)

/-- KvAdapter.checkRateLimit: same window logic as the memory adapter,
with the state read from and written back to the rate namespace. -/
def KvAdapter.checkRateLimit (st : KvAdapter) (keyId : String)
    (rateLimit : RateLimitConfig) (now : Int) : KvAdapter × Bool :=
  let state := (st.rateStore keyId).getD { requests := [], windowStart := now }
  let state :=
    if now - state.windowStart > rateLimit.windowMs then
      { requests := [], windowStart := now }
    else state
  let kept := state.requests.filter (fun ts => now - ts < rateLimit.windowMs)
  if kept.length ≥ rateLimit.maxRequests then
    let newState : RateLimitState :=
      { requests := kept, windowStart := state.windowStart }
    ({ st with rateStore := mapSet st.rateStore keyId newState }, false)
  else
    let newState : RateLimitState :=
      { requests := kept ++ [now], windowStart := state.windowStart }
    ({ st with rateStore := mapSet st.rateStore keyId newState }, true)

/-!
The storage adapter contract (src/types.ts, interface StorageAdapter) and
the lifecycle manager (src/manager.ts, class ApiKeyManager).  Adapter
methods may reject (throw), modelled with Except String; read methods of
every shipped adapter leave the state unchanged, so they return no state.
The clock readings the source takes with new Date() / Date.now() are
passed in explicitly. -/

/-- The pluggable persistence contract, from src/types.ts. -/
structure StorageAdapter (σ : Type) where
  saveKey : σ → ApiKeyRecord → Except String σ
  getKeyById : σ → String → Except String (Option ApiKeyRecord)
  getKeyByValue : σ → String → Except String (Option ApiKeyRecord)
  getKeysByownerId : σ → String → Except String (List ApiKeyRecord)
  updateKey : σ → String → ApiKeyRecord → Except String (σ × Option ApiKeyRecord)
  deleteKey : σ → String → Except String (σ × Bool)
  checkRateLimit : σ → String → RateLimitConfig → Int → Except String (σ × Bool)

/-- The in-memory adapter packaged under the storage contract; it never
rejects. -/
def MemoryAdapter.storage : StorageAdapter MemoryAdapter :=
  { saveKey := fun st r => .ok (st.saveKey r)
    getKeyById := fun st i => .ok (st.getKeyById i)
    getKeyByValue := fun st v => .ok (st.getKeyByValue v)
    getKeysByownerId := fun st o => .ok (st.getKeysByownerId o)
    updateKey := fun st i r => .ok (st.updateKey i r)
    deleteKey := fun st i => .ok (st.deleteKey i)
    checkRateLimit := fun st i c now => .ok (st.checkRateLimit i c now) }

/-- Manager configuration that matters to the verified operations: the
injected adapter and the default rate limit policy (the secret material a
creation call uses is passed to createKey explicitly, standing for the
random generator). -/
structure ApiKeyManager (σ : Type) where
  adapter : StorageAdapter σ
  rateLimit : RateLimitConfig

/-- The partial update accepted by ApiKeyManager.updateKey.  Its
TypeScript type picks the six mutable fields; a JavaScript caller can
still pass an object carrying the other fields, which the object spread
would copy, so those are modelled too (C6 is about exactly this). -/
structure KeyUpdates where
  name : Option String := none
  isActive : Option Bool := none
  permissions : Option (List (String × String)) := none
  expiresAt : Option (Option Int) := none
  metadata : Option (List (String × String)) := none
  rateLimit : Option (Option RateLimitConfig) := none
  id : Option String := none
  key : Option String := none
  ownerId : Option String := none
  createdAt : Option Int := none
  deriving Repr

/-- The record built inside ApiKeyManager.updateKey: spread of the
existing record, then the updates, then the four pinned fields, then the
truthiness-guarded expiresAt normalisation (an identity on the timestamp
model). -/
def mergeUpdates (existing : ApiKeyRecord) (u : KeyUpdates) : ApiKeyRecord :=
  { id := existing.id
    key := existing.key
    ownerId := existing.ownerId
    createdAt := existing.createdAt
    name := u.name.getD existing.name
    permissions := u.permissions.getD existing.permissions
    rateLimit := u.rateLimit.getD existing.rateLimit
    isActive := u.isActive.getD existing.isActive
    lastUsedAt := existing.lastUsedAt
    expiresAt := u.expiresAt.getD existing.expiresAt
    metadata := u.metadata.getD existing.metadata }

/-- ApiKeyManager.createKey.  genKey and genId stand for the generated
secret and UUID; now is the creation clock reading.  Empty ownerId or
name throws. -/
def ApiKeyManager.createKey {σ : Type} (m : ApiKeyManager σ) (st : σ)
    (ownerId name : String) (permissions : List (String × String))
    (rateLimit : Option RateLimitConfig) (expiresAt : Option Int)
    (metadata : List (String × String)) (genKey genId : String)
    (now : Int) : Except String (σ × ApiKeyRecord) :=
  if ownerId = "" then .error "Owner Id is required"
  else if name = "" then .error "API key name is required"
  else
    let record : ApiKeyRecord :=
      { id := genId, key := genKey, ownerId := ownerId, name := name
        permissions := permissions, rateLimit := rateLimit
        isActive := true, createdAt := now, lastUsedAt := none
        expiresAt := expiresAt, metadata := metadata }
    do
      let st' ← m.adapter.saveKey st record
      return (st', record)

/-- ApiKeyManager.getKeys: list the owner, strip the secret from each
record, and add it back only when includeKey was requested (second pair
component some when present). -/
def ApiKeyManager.getKeys {σ : Type} (m : ApiKeyManager σ) (st : σ)
    (ownerId : String) (includeKey : Bool) :
    Except String (List (SanitizedApiKeyRecord × Option String)) :=
  if ownerId = "" then .error "Owner Id is required"
  else do
    let keys ← m.adapter.getKeysByownerId st ownerId
    return keys.map (fun r =>
      (sanitize r, if includeKey then some r.key else none))

/-- ApiKeyManager.getKeyById.  The owner check is guarded for truthiness
(if (ownerId && ...)), so a missing or empty ownerId skips it. -/
def ApiKeyManager.getKeyById {σ : Type} (m : ApiKeyManager σ) (st : σ)
    (keyId : String) (ownerId : Option String) :
    Except String (Option SanitizedApiKeyRecord) :=
  if keyId = "" then .error "API key ID is required"
  else do
    let k ← m.adapter.getKeyById st keyId
    match k with
    | none => return none
    | some record =>
      match ownerId with
      | some o =>
        if o ≠ "" ∧ record.ownerId ≠ o then return none
        else return some (sanitize record)
      | none => return some (sanitize record)

/-- ApiKeyManager.updateKey: validate the arguments, load the record,
reject owner mismatch as null, merge the updates with the four immutable
fields pinned, store through the adapter, and sanitize the result. -/
def ApiKeyManager.updateKey {σ : Type} (m : ApiKeyManager σ) (st : σ)
    (keyId ownerId : String) (updates : KeyUpdates) :
    Except String (σ × Option SanitizedApiKeyRecord) :=
  if keyId = "" then .error "API key ID is required"
  else if ownerId = "" then .error "Owner Id is required"
  else do
    let k ← m.adapter.getKeyById st keyId
    match k with
    | none => return (st, none)
    | some existing =>
      if existing.ownerId ≠ ownerId then return (st, none)
      else do
        let (st', saved) ← m.adapter.updateKey st keyId
          (mergeUpdates existing updates)
        match saved with
        | none => return (st', none)
        | some savedRecord => return (st', some (sanitize savedRecord))

/-- ApiKeyManager.deleteKey: validate the arguments, check existence and
ownership, then delegate to the adapter. -/
def ApiKeyManager.deleteKey {σ : Type} (m : ApiKeyManager σ) (st : σ)
    (keyId ownerId : String) : Except String (σ × Bool) :=
  if keyId = "" then .error "API key ID is required"
  else if ownerId = "" then .error "Owner Id is required"
  else do
    let k ← m.adapter.getKeyById st keyId
    match k with
    | none => return (st, false)
    | some existing =>
      if existing.ownerId ≠ ownerId then return (st, false)
      else m.adapter.deleteKey st keyId

/-- The expiry test in ApiKeyManager.validateKey:
apiKey.expiresAt && new Date(apiKey.expiresAt) < new Date(), at clock
reading now. -/
def isExpired (r : ApiKeyRecord) (now : Int) : Bool :=
  match r.expiresAt with
  | some e => decide (e < now)
  | none => false

/-- ApiKeyManager.validateKey at clock readings now (the expiry
comparison) and nowStamp (the lastUsedAt stamp).  An empty secret returns
null; lookup failure, an inactive record, and a past expiry return null;
otherwise the record is stamped through the adapter and returned
sanitized as read before the stamp. -/
def ApiKeyManager.validateKey {σ : Type} (m : ApiKeyManager σ) (st : σ)
    (keyValue : String) (now nowStamp : Int) :
    Except String (σ × Option SanitizedApiKeyRecord) :=
  if keyValue = "" then .ok (st, none)
  else do
    let k ← m.adapter.getKeyByValue st keyValue
    match k with
    | none => return (st, none)
    | some apiKey =>
      if apiKey.isActive = false then return (st, none)
      else if isExpired apiKey now then return (st, none)
      else do
        let (st', _) ← m.adapter.updateKey st apiKey.id
          { apiKey with lastUsedAt := some nowStamp }
        return (st', some (sanitize apiKey))

/-- ApiKeyManager.checkRateLimit: an empty id returns false; otherwise
delegate with the override or the configured default policy. -/
def ApiKeyManager.checkRateLimit {σ : Type} (m : ApiKeyManager σ) (st : σ)
    (keyId : String) (override : Option RateLimitConfig) (now : Int) :
    Except String (σ × Bool) :=
  if keyId = "" then .ok (st, false)
  else m.adapter.checkRateLimit st keyId (override.getD m.rateLimit) now

/-- A manager over the in-memory adapter with default policy cfg. -/
def memMgr (cfg : RateLimitConfig) : ApiKeyManager MemoryAdapter :=
  { adapter := MemoryAdapter.storage, rateLimit := cfg }

/-!
Rate limiter models.  slidingLogCheck follows the words of the spec
(section 4.3, realization 1: strict sliding log); resetLogCheck describes
what the shipped adapters actually compute, namely the sliding log with
an extra forgetting step tied to the start of the current window segment.
-/

/-- Strict sliding log, written from the words of the spec: drop entries
older than windowMs, admit iff the remaining count is below maxRequests,
and append the current timestamp only on admission. -/
def slidingLogCheck (log : List Int) (cfg : RateLimitConfig) (now : Int) :
    List Int × Bool :=
  let recent := log.filter (fun ts => now - ts < cfg.windowMs)
  if recent.length < cfg.maxRequests then (recent ++ [now], true)
  else (recent, false)

/-- Decisions of the strict sliding log over a call sequence. -/
def slidingLogTrace (log : List Int) (cfg : RateLimitConfig) :
    List Int → List Bool
  | [] => []
  | t :: ts =>
    let step := slidingLogCheck log cfg t
    step.2 :: slidingLogTrace step.1 cfg ts

/-- One step of the window-segment-resetting sliding log: when more than
windowMs has elapsed since the segment start the whole log is forgotten
and the segment restarts at now; otherwise the strict filter applies; the
timestamp is recorded only on admission. -/
def resetLogCheck (state : Option RateLimitState) (cfg : RateLimitConfig)
    (now : Int) : RateLimitState × Bool :=
  let s := state.getD { requests := [], windowStart := now }
  let s :=
    if now - s.windowStart > cfg.windowMs then
      { requests := [], windowStart := now }
    else s
  let recent := s.requests.filter (fun ts => now - ts < cfg.windowMs)
  if recent.length ≥ cfg.maxRequests then
    ({ requests := recent, windowStart := s.windowStart }, false)
  else
    ({ requests := recent ++ [now], windowStart := s.windowStart }, true)

/-- Decisions of the resetting sliding log over a call sequence. -/
def resetLogTrace (state : Option RateLimitState) (cfg : RateLimitConfig) :
    List Int → List Bool
  | [] => []
  | t :: ts =>
    let step := resetLogCheck state cfg t
    step.2 :: resetLogTrace (some step.1) cfg ts

/-- Decisions of MemoryAdapter.checkRateLimit for one credential over a
call sequence. -/
def MemoryAdapter.rateTrace (st : MemoryAdapter) (keyId : String)
    (cfg : RateLimitConfig) : List Int → List Bool
  | [] => []
  | t :: ts =>
    let step := st.checkRateLimit keyId cfg t
    step.2 :: step.1.rateTrace keyId cfg ts

/-!
Well-formedness predicates over adapter states.  States built by the
adapters from an empty store satisfy them, except that saveKey with a
changed secret breaks the exactness of the secret index (claim C10). -/

/-- Each record sits in the primary index under its own id. -/
def idConsistent (st : MemoryAdapter) : Prop :=
  ∀ i r, st.keysById i = some r → r.id = i

/-- The secret index is exact: every index entry leads to a live record
carrying that secret (through a nonempty id), and every stored record is
reachable from its secret. -/
def secretIndexExact (st : MemoryAdapter) : Prop :=
  (∀ v i, st.keyValueToId v = some i →
    i ≠ "" ∧ ∃ r, st.keysById i = some r ∧ r.key = v) ∧
  (∀ i r, st.keysById i = some r → st.keyValueToId r.key = some i)

/-- Each record sits in the KV primary namespace under its own id. -/
def kvIdConsistent (st : KvAdapter) : Prop :=
  ∀ i r, st.idStore i = some r → r.id = i

/-!
Concrete fixtures used by witnesses and counterexamples. -/

/-- A plain active credential record. -/
def rec1 : ApiKeyRecord :=
  { id := "id-1", key := "key-1", ownerId := "owner-1", name := "n"
    permissions := [], rateLimit := none, isActive := true, createdAt := 0
    lastUsedAt := none, expiresAt := none, metadata := [] }

/-- An active record whose secret is the empty string (storable through
the adapter interface, never produced by createKey). -/
def recEmptyKey : ApiKeyRecord :=
  { id := "id-1", key := "", ownerId := "owner-1", name := "n"
    permissions := [], rateLimit := none, isActive := true, createdAt := 0
    lastUsedAt := none, expiresAt := none, metadata := [] }

/-- The record of rec1 reissued under the same id with a new secret. -/
def rec1NewSecret : ApiKeyRecord :=
  { rec1 with key := "key-2" }

/-- Memory state holding exactly rec1. -/
def exSt : MemoryAdapter := emptyMemory.saveKey rec1

/-- Memory state holding exactly recEmptyKey. -/
def cexSt : MemoryAdapter := emptyMemory.saveKey recEmptyKey

/-- KV state holding exactly rec1, with rate state for it. -/
def exKv : KvAdapter := ((emptyKv.saveKey rec1).checkRateLimit "id-1" ⟨1000, 1⟩ 0).1

/-- Memory state holding rec1 with rate state for it. -/
def exStRate : MemoryAdapter := (exSt.checkRateLimit "id-1" ⟨1000, 1⟩ 0).1

/-- A partial update that tries to overwrite every field, including the
immutable ones. -/
def advUpdates : KeyUpdates :=
  { name := some "new-name", isActive := some false
    permissions := some [("p", "q")], expiresAt := some (some 5)
    metadata := some [("a", "b")], rateLimit := some (some ⟨10, 2⟩)
    id := some "evil-id", key := some "evil-key"
    ownerId := some "evil-owner", createdAt := some 999 }

/-- A storage adapter over the memory state whose updateKey rejects, used
to observe how the manager treats a failing lastUsedAt stamp. -/
def failingStorage : StorageAdapter MemoryAdapter :=
  { MemoryAdapter.storage with updateKey := fun _ _ _ => .error "update failed" }

theorem okBind {α β : Type} (a : α) (f : α → Except String β) :
    (Except.ok a >>= f : Except String β) = f a := rfl

theorem errBind {α β : Type} (e : String) (f : α → Except String β) :
    (Except.error e >>= f : Except String β) = Except.error e := rfl

theorem pureOk {α : Type} (a : α) :
    (pure a : Except String α) = Except.ok a := rfl

theorem mapSet_self {α : Type} (m : String → Option α) (k : String) (v : α) :
    mapSet m k v k = some v := by simp [mapSet]

theorem mapSet_ne {α : Type} (m : String → Option α) (k q : String) (v : α)
    (h : q ≠ k) : mapSet m k v q = m q := by simp [mapSet, h]

theorem mapDel_self {α : Type} (m : String → Option α) (k : String) :
    mapDel m k k = none := by simp [mapDel]

theorem mapDel_ne {α : Type} (m : String → Option α) (k q : String)
    (h : q ≠ k) : mapDel m k q = m q := by simp [mapDel, h]

theorem getKeyByValue_none_forall (st : MemoryAdapter)
    (hex : secretIndexExact st) (s : String)
    (h : st.getKeyByValue s = none) :
    ∀ i r, st.keysById i = some r → r.key ≠ s := by
  intro i r hir hkey
  have hv : st.keyValueToId s = some i := by
    have h2 := hex.2 i r hir
    rwa [hkey] at h2
  have hne := (hex.1 s i hv).1
  simp only [MemoryAdapter.getKeyByValue, hv, if_neg hne, hir] at h
  cases h

theorem getKeyByValue_none_of_forall (st : MemoryAdapter)
    (hex : secretIndexExact st) (s : String)
    (h : ∀ i r, st.keysById i = some r → r.key ≠ s) :
    st.getKeyByValue s = none := by
  cases hv : st.keyValueToId s with
  | none => simp [MemoryAdapter.getKeyByValue, hv]
  | some i =>
    obtain ⟨_, r0, hr0, hk0⟩ := hex.1 s i hv
    exact absurd hk0 (h i r0 hr0)

theorem isExpired_true_iff (r : ApiKeyRecord) (now : Int) :
    isExpired r now = true ↔ ∃ e, r.expiresAt = some e ∧ e < now := by
  cases hr : r.expiresAt <;> simp [isExpired, hr]

theorem isExpired_false_iff (r : ApiKeyRecord) (now : Int) :
    isExpired r now = false ↔ ∀ e, r.expiresAt = some e → now ≤ e := by
  cases hr : r.expiresAt <;> simp [isExpired, hr, Int.not_lt]

theorem getKeyByValue_some_spec (st : MemoryAdapter)
    (hex : secretIndexExact st) (s : String) (r : ApiKeyRecord)
    (h : st.getKeyByValue s = some r) :
    r.key = s ∧ (∃ i, st.keysById i = some r) ∧
      ∀ i' r', st.keysById i' = some r' → r'.key = s → r' = r := by
  cases hv : st.keyValueToId s with
  | none =>
    simp only [MemoryAdapter.getKeyByValue, hv] at h
    cases h
  | some i =>
    obtain ⟨hne, r0, hr0, hk0⟩ := hex.1 s i hv
    simp only [MemoryAdapter.getKeyByValue, hv, if_neg hne, hr0] at h
    cases h
    refine ⟨hk0, ⟨i, hr0⟩, ?_⟩
    intro i' r' hr' hk'
    have h2 := hex.2 i' r' hr'
    rw [hk'] at h2
    rw [hv] at h2
    cases h2
    rw [hr0] at hr'
    cases hr'
    rfl

/-- C1 (amended): for every nonempty secretValue, over a state whose
secret index is exact, validateKey returns null exactly when no stored
record has that secret, or the matching record is inactive, or its
expiresAt is non-null and strictly earlier than the evaluation time; in
every other case it returns the matching record without its secret. -/
theorem validateKey_gating (cfg : RateLimitConfig) (st : MemoryAdapter)
    (s : String) (now nowStamp : Int)
    (hs : s ≠ "") (hex : secretIndexExact st) :
    ∃ st' res,
      ApiKeyManager.validateKey (memMgr cfg) st s now nowStamp =
        Except.ok (st', res) ∧
      (res = none ↔
        (∀ i r, st.keysById i = some r → r.key ≠ s) ∨
        (∃ i r, st.keysById i = some r ∧ r.key = s ∧
          (r.isActive = false ∨ ∃ e, r.expiresAt = some e ∧ e < now))) ∧
      (∀ x, res = some x →
        ∃ i r, st.keysById i = some r ∧ r.key = s ∧ r.isActive = true ∧
          (∀ e, r.expiresAt = some e → now ≤ e) ∧ x = sanitize r) := by
  cases hfind : st.getKeyByValue s with
  | none =>
    refine ⟨st, none, ?_, ?_, ?_⟩
    · simp [ApiKeyManager.validateKey, memMgr, MemoryAdapter.storage, hs,
        hfind, okBind, pureOk]
    · constructor
      · intro _
        exact Or.inl (getKeyByValue_none_forall st hex s hfind)
      · intro _
        rfl
    · intro x hx
      cases hx
  | some r =>
    obtain ⟨hkey, ⟨i, hir⟩, huniq⟩ := getKeyByValue_some_spec st hex s r hfind
    by_cases hact : r.isActive = false
    · refine ⟨st, none, ?_, ?_, ?_⟩
      · simp [ApiKeyManager.validateKey, memMgr, MemoryAdapter.storage, hs,
          hfind, hact, okBind, pureOk]
      · constructor
        · intro _
          exact Or.inr ⟨i, r, hir, hkey, Or.inl hact⟩
        · intro _
          rfl
      · intro x hx
        cases hx
    · have hactT : r.isActive = true := by
        cases hb : r.isActive
        · exact absurd hb hact
        · rfl
      cases hexp : isExpired r now with
      | true =>
        obtain ⟨e, he, hlt⟩ := (isExpired_true_iff r now).mp hexp
        refine ⟨st, none, ?_, ?_, ?_⟩
        · simp [ApiKeyManager.validateKey, memMgr, MemoryAdapter.storage, hs,
            hfind, hact, hexp, okBind, pureOk]
        · constructor
          · intro _
            exact Or.inr ⟨i, r, hir, hkey, Or.inr ⟨e, he, hlt⟩⟩
          · intro _
            rfl
        · intro x hx
          cases hx
      | false =>
        refine ⟨(st.updateKey r.id { r with lastUsedAt := some nowStamp }).1,
          some (sanitize r), ?_, ?_, ?_⟩
        · simp [ApiKeyManager.validateKey, memMgr, MemoryAdapter.storage, hs,
            hfind, hact, hexp, okBind, pureOk]
        · constructor
          · intro hx
            cases hx
          · intro hrhs
            rcases hrhs with hall | ⟨i', r', hir', hk', hbad⟩
            · exact absurd hkey (hall i r hir)
            · have := huniq i' r' hir' hk'
              subst this
              rcases hbad with hb | ⟨e, he, hlt⟩
              · rw [hb] at hactT
                cases hactT
              · have : isExpired r' now = true :=
                  (isExpired_true_iff r' now).mpr ⟨e, he, hlt⟩
                rw [this] at hexp
                cases hexp
        · intro x hx
          cases hx
          exact ⟨i, r, hir, hkey, hactT,
            (isExpired_false_iff r now).mp hexp, rfl⟩

theorem exSt_keysById_eq (i : String) :
    exSt.keysById i = if i = "id-1" then some rec1 else none := by
  simp [exSt, MemoryAdapter.saveKey, emptyMemory, mapSet, rec1]

theorem exSt_keyValueToId_eq (v : String) :
    exSt.keyValueToId v = if v = "key-1" then some "id-1" else none := by
  simp [exSt, MemoryAdapter.saveKey, emptyMemory, mapSet, rec1]

theorem exSt_secretIndexExact : secretIndexExact exSt := by
  constructor
  · intro v i h
    rw [exSt_keyValueToId_eq] at h
    split at h
    · cases h
      subst v
      exact ⟨by decide, rec1, by rw [exSt_keysById_eq]; simp, rfl⟩
    · cases h
  · intro i r h
    rw [exSt_keysById_eq] at h
    split at h
    · cases h
      subst i
      rw [exSt_keyValueToId_eq]
      simp [rec1]
    · cases h

theorem exSt_idConsistent : idConsistent exSt := by
  intro i r h
  rw [exSt_keysById_eq] at h
  split at h
  · cases h
    subst i
    rfl
  · cases h

/-- C1 counterexample: a stored record whose secret is the empty string
is active and unexpired, yet validateKey of that secret returns null (the
source short-circuits on a falsy key value). -/
theorem validateKey_empty_secret_cex :
    cexSt.keysById "id-1" = some recEmptyKey ∧
    recEmptyKey.key = "" ∧ recEmptyKey.isActive = true ∧
    recEmptyKey.expiresAt = none ∧
    ApiKeyManager.validateKey (memMgr ⟨1000, 1⟩) cexSt "" 0 0 =
      Except.ok (cexSt, none) := by
  refine ⟨?_, rfl, rfl, rfl, rfl⟩
  simp [cexSt, MemoryAdapter.saveKey, emptyMemory, mapSet, recEmptyKey]

/-- C1 witness: the gating theorem applied to a concrete one-record
state and its stored secret. -/
theorem validateKey_gating_witness :
    ∃ st' res,
      ApiKeyManager.validateKey (memMgr ⟨1000, 1⟩) exSt "key-1" 0 0 =
        Except.ok (st', res) ∧
      (res = none ↔
        (∀ i r, exSt.keysById i = some r → r.key ≠ "key-1") ∨
        (∃ i r, exSt.keysById i = some r ∧ r.key = "key-1" ∧
          (r.isActive = false ∨ ∃ e, r.expiresAt = some e ∧ e < 0))) ∧
      (∀ x, res = some x →
        ∃ i r, exSt.keysById i = some r ∧ r.key = "key-1" ∧
          r.isActive = true ∧ (∀ e, r.expiresAt = some e → (0:Int) ≤ e) ∧
          x = sanitize r) :=
  validateKey_gating ⟨1000, 1⟩ exSt "key-1" 0 0 (by decide)
    exSt_secretIndexExact

theorem updateKey_keysById (st : MemoryAdapter) (keyId : String)
    (u r : ApiKeyRecord) (hir : st.keysById keyId = some r) :
    (st.updateKey keyId u).1.keysById = mapSet st.keysById keyId u ∧
    (st.updateKey keyId u).2 = some u := by
  unfold MemoryAdapter.updateKey
  simp only [hir]
  constructor
  · dsimp only
    split_ifs <;> rfl
  · trivial

/-- C9: a successful validateKey returns the record as read before the
lastUsedAt stamp (its lastUsedAt is the previous value), while the stored
copy is stamped with the current time. -/
theorem validateKey_prestamp (cfg : RateLimitConfig) (st : MemoryAdapter)
    (s : String) (now nowStamp : Int) (r : ApiKeyRecord)
    (hs : s ≠ "") (hfound : st.getKeyByValue s = some r)
    (hact : r.isActive = true) (hexp : isExpired r now = false)
    (hid : idConsistent st) :
    ∃ st', ApiKeyManager.validateKey (memMgr cfg) st s now nowStamp =
        Except.ok (st', some (sanitize r)) ∧
      (sanitize r).lastUsedAt = r.lastUsedAt ∧
      st'.keysById r.id = some { r with lastUsedAt := some nowStamp } := by
  have hi : ∃ i, st.keysById i = some r ∧ i ≠ "" := by
    cases hv : st.keyValueToId s with
    | none => simp [MemoryAdapter.getKeyByValue, hv] at hfound
    | some i =>
      by_cases hie : i = ""
      · simp [MemoryAdapter.getKeyByValue, hv, hie] at hfound
      · simp only [MemoryAdapter.getKeyByValue, hv, if_neg hie] at hfound
        exact ⟨i, hfound, hie⟩
  obtain ⟨i, hir, _⟩ := hi
  have hidr : r.id = i := hid i r hir
  have hir' : st.keysById r.id = some r := by rw [hidr]; exact hir
  obtain ⟨hkb, _⟩ :=
    updateKey_keysById st r.id { r with lastUsedAt := some nowStamp } r hir'
  refine ⟨(st.updateKey r.id { r with lastUsedAt := some nowStamp }).1,
    ?_, rfl, ?_⟩
  · simp [ApiKeyManager.validateKey, memMgr, MemoryAdapter.storage, hs,
      hfound, hact, hexp, okBind, pureOk]
  · rw [hkb, mapSet_self]

/-- C9 witness: first successful validation of the fixture key stamps the
stored copy and returns the unstamped record. -/
theorem validateKey_prestamp_witness :
    ∃ st', ApiKeyManager.validateKey (memMgr ⟨1000, 1⟩) exSt "key-1" 0 7 =
        Except.ok (st', some (sanitize rec1)) ∧
      (sanitize rec1).lastUsedAt = rec1.lastUsedAt ∧
      st'.keysById rec1.id = some { rec1 with lastUsedAt := some 7 } :=
  validateKey_prestamp ⟨1000, 1⟩ exSt "key-1" 0 7 rec1 (by decide)
    (by rw [MemoryAdapter.getKeyByValue, exSt_keyValueToId_eq]
        simp [exSt_keysById_eq])
    rfl rfl exSt_idConsistent

/-- C3 (amended): once the lookup, isActive and expiry checks have
passed, the adapter update that stamps lastUsedAt is awaited without any
error handling: when it fails, validateKey fails with the same error and
the sanitized record is not returned; only when it succeeds is the
sanitized record returned. -/
theorem validateKey_update_error {σ : Type} (ad : StorageAdapter σ)
    (cfg : RateLimitConfig) (st : σ) (s : String) (now nowStamp : Int)
    (r : ApiKeyRecord)
    (hs : s ≠ "") (hfind : ad.getKeyByValue st s = Except.ok (some r))
    (hact : r.isActive = true) (hexp : isExpired r now = false) :
    (∀ e, ad.updateKey st r.id { r with lastUsedAt := some nowStamp } =
        Except.error e →
      ApiKeyManager.validateKey ⟨ad, cfg⟩ st s now nowStamp =
        Except.error e) ∧
    (∀ st2 saved,
      ad.updateKey st r.id { r with lastUsedAt := some nowStamp } =
        Except.ok (st2, saved) →
      ApiKeyManager.validateKey ⟨ad, cfg⟩ st s now nowStamp =
        Except.ok (st2, some (sanitize r))) := by
  constructor
  · intro e hupd
    rw [hact] at hupd
    simp [ApiKeyManager.validateKey, hs, hfind, hact, hexp, hupd, okBind,
      errBind, pureOk]
  · intro st2 saved hupd
    rw [hact] at hupd
    simp [ApiKeyManager.validateKey, hs, hfind, hact, hexp, hupd, okBind,
      errBind, pureOk]

/-- C3 counterexample: over an adapter whose update rejects, a validation
that passed every check fails with the update error instead of returning
the sanitized record. -/
theorem validateKey_update_error_cex :
    failingStorage.getKeyByValue exSt "key-1" = Except.ok (some rec1) ∧
    rec1.isActive = true ∧ rec1.expiresAt = none ∧
    ApiKeyManager.validateKey ⟨failingStorage, ⟨1000, 1⟩⟩ exSt "key-1" 0 0 =
      Except.error "update failed" := by
  exact ⟨rfl, rfl, rfl, rfl⟩

/-- C3 witness: the propagation theorem applied to the concrete failing
adapter. -/
theorem validateKey_update_error_witness :
    ApiKeyManager.validateKey ⟨failingStorage, ⟨1000, 1⟩⟩ exSt "key-1" 0 0 =
      Except.error "update failed" :=
  (validateKey_update_error failingStorage ⟨1000, 1⟩ exSt "key-1" 0 0 rec1
    (by decide) rfl rfl rfl).1 "update failed" rfl

theorem checkRateLimit_step (st : MemoryAdapter) (k : String)
    (cfg : RateLimitConfig) (t : Int) :
    (st.checkRateLimit k cfg t).2 =
      (resetLogCheck (st.rateLimits k) cfg t).2 ∧
    (st.checkRateLimit k cfg t).1.rateLimits k =
      some (resetLogCheck (st.rateLimits k) cfg t).1 := by
  unfold MemoryAdapter.checkRateLimit resetLogCheck
  dsimp only
  split_ifs <;> simp [mapSet]

/-- C2 (amended): for one credential, MemoryAdapter.checkRateLimit makes
exactly the decisions of the sliding log with window segment resets:
whenever more than windowMs has elapsed since the start of the current
segment, every recorded timestamp is forgotten and the segment restarts;
otherwise a call is admitted iff fewer than maxRequests recorded
timestamps lie strictly within the trailing windowMs, the timestamp being
recorded only on admission. -/
theorem checkRateLimit_resetting_log (cfg : RateLimitConfig)
    (st : MemoryAdapter) (k : String) (times : List Int) :
    st.rateTrace k cfg times = resetLogTrace (st.rateLimits k) cfg times := by
  induction times generalizing st with
  | nil => rfl
  | cons t ts ih =>
    obtain ⟨h2, h1⟩ := checkRateLimit_step st k cfg t
    simp only [MemoryAdapter.rateTrace, resetLogTrace]
    rw [h2, ih, h1]

/-- C2 counterexample: on calls at 0, 900, 1100 and 1200 with policy
windowMs 1000 and maxRequests 2, the memory adapter admits the fourth
call, while the strict sliding log of the spec denies it (900 and 1100
are both strictly within its trailing window). -/
theorem checkRateLimit_not_sliding_log_cex :
    emptyMemory.rateTrace "k" ⟨1000, 2⟩ [0, 900, 1100, 1200] =
      [true, true, true, true] ∧
    slidingLogTrace [] ⟨1000, 2⟩ [0, 900, 1100, 1200] =
      [true, true, true, false] := by decide

/-- C4: every read-path return value other than the immediate result of
createKey carries no secret: getKeys without includeKey pairs every
record with none in the key slot, and getKeyById, updateKey and
validateKey only ever return values in the image of sanitize. -/
theorem read_paths_sanitized (cfg : RateLimitConfig) :
    (∀ st o, o ≠ "" →
      ApiKeyManager.getKeys (memMgr cfg) st o false =
        Except.ok ((st.getKeysByownerId o).map
          (fun r => (sanitize r, (none : Option String))))) ∧
    (∀ st i o res, ApiKeyManager.getKeyById (memMgr cfg) st i o =
        Except.ok res → ∀ x, res = some x → ∃ r, x = sanitize r) ∧
    (∀ st i o u st' res, ApiKeyManager.updateKey (memMgr cfg) st i o u =
        Except.ok (st', res) → ∀ x, res = some x → ∃ r, x = sanitize r) ∧
    (∀ st v now now2 st' res,
      ApiKeyManager.validateKey (memMgr cfg) st v now now2 =
        Except.ok (st', res) → ∀ x, res = some x → ∃ r, x = sanitize r) := by
  refine ⟨?_, ?_, ?_, ?_⟩
  · intro st o ho
    simp [ApiKeyManager.getKeys, ho, memMgr, MemoryAdapter.storage, okBind,
      pureOk]
  · intro st i o res h x hx
    subst hx
    by_cases hi : i = ""
    · simp [ApiKeyManager.getKeyById, hi] at h
    · cases hk : st.keysById i with
      | none =>
        simp [ApiKeyManager.getKeyById, hi, memMgr, MemoryAdapter.storage,
          MemoryAdapter.getKeyById, hk, okBind, pureOk] at h
      | some record =>
        cases o with
        | none =>
          simp [ApiKeyManager.getKeyById, hi, memMgr, MemoryAdapter.storage,
            MemoryAdapter.getKeyById, hk, okBind, pureOk] at h
          exact ⟨record, h.symm⟩
        | some o' =>
          by_cases hcond : o' ≠ "" ∧ record.ownerId ≠ o'
          · simp [ApiKeyManager.getKeyById, hi, memMgr, MemoryAdapter.storage,
              MemoryAdapter.getKeyById, hk, hcond, okBind, pureOk] at h
          · simp [ApiKeyManager.getKeyById, hi, memMgr, MemoryAdapter.storage,
              MemoryAdapter.getKeyById, hk, hcond, okBind, pureOk] at h
            exact ⟨record, h.symm⟩
  · intro st i o u st' res h x hx
    subst hx
    by_cases hi : i = ""
    · simp [ApiKeyManager.updateKey, hi] at h
    · by_cases ho : o = ""
      · simp [ApiKeyManager.updateKey, hi, ho] at h
      · cases hk : st.keysById i with
        | none =>
          simp [ApiKeyManager.updateKey, hi, ho, memMgr,
            MemoryAdapter.storage, MemoryAdapter.getKeyById, hk, okBind,
            pureOk] at h
        | some existing =>
          by_cases hown : existing.ownerId ≠ o
          · simp [ApiKeyManager.updateKey, hi, ho, memMgr,
              MemoryAdapter.storage, MemoryAdapter.getKeyById, hk, hown,
              okBind, pureOk] at h
          · have heq : existing.ownerId = o := not_not.mp hown
            obtain ⟨_, h2⟩ :=
              updateKey_keysById st i (mergeUpdates existing u) existing hk
            simp [ApiKeyManager.updateKey, hi, ho, memMgr,
              MemoryAdapter.storage, MemoryAdapter.getKeyById, hk, heq,
              okBind, pureOk, h2] at h
            exact ⟨mergeUpdates existing u, h.2.symm⟩
  · intro st v now now2 st' res h x hx
    subst hx
    by_cases hv : v = ""
    · simp [ApiKeyManager.validateKey, hv] at h
    · cases hf : st.getKeyByValue v with
      | none =>
        simp [ApiKeyManager.validateKey, hv, memMgr, MemoryAdapter.storage,
          hf, okBind, pureOk] at h
      | some r =>
        by_cases hact : r.isActive = false
        · simp [ApiKeyManager.validateKey, hv, memMgr, MemoryAdapter.storage,
            hf, hact, okBind, pureOk] at h
        · cases hexp : isExpired r now with
          | true =>
            simp [ApiKeyManager.validateKey, hv, memMgr,
              MemoryAdapter.storage, hf, hact, hexp, okBind, pureOk] at h
          | false =>
            simp [ApiKeyManager.validateKey, hv, memMgr,
              MemoryAdapter.storage, hf, hact, hexp, okBind, pureOk] at h
            exact ⟨r, h.2.symm⟩

/-- C4 witness: listing the fixture owner yields the sanitized fixture
record with no secret attached, and its sanitized shape is in the image
of sanitize. -/
theorem read_paths_sanitized_witness :
    ApiKeyManager.getKeys (memMgr ⟨1000, 1⟩) exSt "owner-1" false =
      Except.ok [(sanitize rec1, none)] ∧
    (∃ r, sanitize rec1 = sanitize r) := by
  constructor
  · have h := (read_paths_sanitized ⟨1000, 1⟩).1 exSt "owner-1" (by decide)
    rw [h]
    rfl
  · exact (read_paths_sanitized ⟨1000, 1⟩).2.1 exSt "id-1" none
      (some (sanitize rec1)) rfl (sanitize rec1) rfl

/-- C5 (amended): for every nonempty ownerId differing from the stored
owner, getKeyById and updateKey return null and deleteKey returns false,
exactly the results produced for a non-existent id, and the adapter state
is left unchanged. -/
theorem owner_mismatch_not_found (cfg : RateLimitConfig)
    (st : MemoryAdapter) (keyId o : String) (r : ApiKeyRecord)
    (hk : keyId ≠ "") (ho : o ≠ "")
    (hstore : st.keysById keyId = some r) (hne : r.ownerId ≠ o) :
    ApiKeyManager.getKeyById (memMgr cfg) st keyId (some o) =
      Except.ok none ∧
    (∀ u, ApiKeyManager.updateKey (memMgr cfg) st keyId o u =
      Except.ok (st, none)) ∧
    ApiKeyManager.deleteKey (memMgr cfg) st keyId o =
      Except.ok (st, false) ∧
    (∀ (st2 : MemoryAdapter) (i2 : String), i2 ≠ "" →
      st2.keysById i2 = none →
      ApiKeyManager.getKeyById (memMgr cfg) st2 i2 (some o) =
        Except.ok none ∧
      (∀ u, ApiKeyManager.updateKey (memMgr cfg) st2 i2 o u =
        Except.ok (st2, none)) ∧
      ApiKeyManager.deleteKey (memMgr cfg) st2 i2 o =
        Except.ok (st2, false)) := by
  refine ⟨?_, ?_, ?_, ?_⟩
  · simp [ApiKeyManager.getKeyById, hk, memMgr, MemoryAdapter.storage,
      MemoryAdapter.getKeyById, hstore, ho, hne, okBind, pureOk]
  · intro u
    simp [ApiKeyManager.updateKey, hk, ho, memMgr, MemoryAdapter.storage,
      MemoryAdapter.getKeyById, hstore, hne, okBind, pureOk]
  · simp [ApiKeyManager.deleteKey, hk, ho, memMgr, MemoryAdapter.storage,
      MemoryAdapter.getKeyById, hstore, hne, okBind, pureOk]
  · intro st2 i2 hi2 hnone
    refine ⟨?_, ?_, ?_⟩
    · simp [ApiKeyManager.getKeyById, hi2, memMgr, MemoryAdapter.storage,
        MemoryAdapter.getKeyById, hnone, okBind, pureOk]
    · intro u
      simp [ApiKeyManager.updateKey, hi2, ho, memMgr, MemoryAdapter.storage,
        MemoryAdapter.getKeyById, hnone, okBind, pureOk]
    · simp [ApiKeyManager.deleteKey, hi2, ho, memMgr, MemoryAdapter.storage,
        MemoryAdapter.getKeyById, hnone, okBind, pureOk]

/-- C5 counterexample: the empty string differs from the stored owner,
yet getKeyById with an empty ownerId skips the ownership check (falsy
guard) and returns the record, and updateKey with an empty ownerId throws
instead of returning null. -/
theorem owner_mismatch_empty_owner_cex :
    ("" : String) ≠ rec1.ownerId ∧
    ApiKeyManager.getKeyById (memMgr ⟨1000, 1⟩) exSt "id-1" (some "") =
      Except.ok (some (sanitize rec1)) ∧
    ApiKeyManager.updateKey (memMgr ⟨1000, 1⟩) exSt "id-1" "" {} =
      Except.error "Owner Id is required" := by
  exact ⟨by decide, rfl, rfl⟩

/-- C5 witness: a mismatching nonempty owner observes not-found results
on the fixture state. -/
theorem owner_mismatch_not_found_witness :
    ApiKeyManager.getKeyById (memMgr ⟨1000, 1⟩) exSt "id-1"
      (some "owner-2") = Except.ok none ∧
    (∀ u, ApiKeyManager.updateKey (memMgr ⟨1000, 1⟩) exSt "id-1" "owner-2" u
      = Except.ok (exSt, none)) ∧
    ApiKeyManager.deleteKey (memMgr ⟨1000, 1⟩) exSt "id-1" "owner-2" =
      Except.ok (exSt, false) ∧
    (∀ (st2 : MemoryAdapter) (i2 : String), i2 ≠ "" →
      st2.keysById i2 = none →
      ApiKeyManager.getKeyById (memMgr ⟨1000, 1⟩) st2 i2 (some "owner-2") =
        Except.ok none ∧
      (∀ u, ApiKeyManager.updateKey (memMgr ⟨1000, 1⟩) st2 i2 "owner-2" u =
        Except.ok (st2, none)) ∧
      ApiKeyManager.deleteKey (memMgr ⟨1000, 1⟩) st2 i2 "owner-2" =
        Except.ok (st2, false)) :=
  owner_mismatch_not_found ⟨1000, 1⟩ exSt "id-1" "owner-2" rec1
    (by decide) (by decide) (by rw [exSt_keysById_eq]; rfl) (by decide)

/-- C6: updateKey keeps id, key, ownerId and createdAt (and lastUsedAt)
of the existing record no matter what the partial update carries; only
name, isActive, permissions, expiresAt, metadata and rateLimit follow the
update. -/
theorem updateKey_immutables (cfg : RateLimitConfig) (st : MemoryAdapter)
    (keyId o : String) (u : KeyUpdates) (r : ApiKeyRecord)
    (hk : keyId ≠ "") (ho : o ≠ "")
    (hstore : st.keysById keyId = some r) (howner : r.ownerId = o) :
    ∃ st' r2,
      ApiKeyManager.updateKey (memMgr cfg) st keyId o u =
        Except.ok (st', some (sanitize r2)) ∧
      st'.keysById keyId = some r2 ∧
      r2.id = r.id ∧ r2.key = r.key ∧ r2.ownerId = r.ownerId ∧
      r2.createdAt = r.createdAt ∧ r2.lastUsedAt = r.lastUsedAt ∧
      r2.name = u.name.getD r.name ∧
      r2.isActive = u.isActive.getD r.isActive ∧
      r2.permissions = u.permissions.getD r.permissions ∧
      r2.expiresAt = u.expiresAt.getD r.expiresAt ∧
      r2.metadata = u.metadata.getD r.metadata ∧
      r2.rateLimit = u.rateLimit.getD r.rateLimit := by
  obtain ⟨h1, h2⟩ := updateKey_keysById st keyId (mergeUpdates r u) r hstore
  refine ⟨(st.updateKey keyId (mergeUpdates r u)).1, mergeUpdates r u,
    ?_, ?_, rfl, rfl, rfl, rfl, rfl, rfl, rfl, rfl, rfl, rfl, rfl⟩
  · simp [ApiKeyManager.updateKey, hk, ho, memMgr, MemoryAdapter.storage,
      MemoryAdapter.getKeyById, hstore, howner, okBind, pureOk, h2]
  · rw [h1, mapSet_self]

/-- C6 witness: an update trying to overwrite every field on the fixture
record leaves id, key, ownerId, createdAt and lastUsedAt untouched. -/
theorem updateKey_immutables_witness :
    ∃ st' r2,
      ApiKeyManager.updateKey (memMgr ⟨1000, 1⟩) exSt "id-1" "owner-1"
        advUpdates = Except.ok (st', some (sanitize r2)) ∧
      st'.keysById "id-1" = some r2 ∧
      r2.id = rec1.id ∧ r2.key = rec1.key ∧ r2.ownerId = rec1.ownerId ∧
      r2.createdAt = rec1.createdAt ∧ r2.lastUsedAt = rec1.lastUsedAt ∧
      r2.name = advUpdates.name.getD rec1.name ∧
      r2.isActive = advUpdates.isActive.getD rec1.isActive ∧
      r2.permissions = advUpdates.permissions.getD rec1.permissions ∧
      r2.expiresAt = advUpdates.expiresAt.getD rec1.expiresAt ∧
      r2.metadata = advUpdates.metadata.getD rec1.metadata ∧
      r2.rateLimit = advUpdates.rateLimit.getD rec1.rateLimit :=
  updateKey_immutables ⟨1000, 1⟩ exSt "id-1" "owner-1" advUpdates rec1
    (by decide) (by decide) (by rw [exSt_keysById_eq]; rfl) rfl

/-- C7: after deleteKey returns true, on the memory adapter and on the KV
adapter alike, the id lookup, the secret lookup and the owner listing no
longer reach the record, the rate limit state for the id is gone, and a
second deleteKey returns false. -/
theorem deleteKey_purges (st : MemoryAdapter) (kst : KvAdapter)
    (id1 id2 : String) (r1 r2 : ApiKeyRecord)
    (h1 : st.keysById id1 = some r1) (hid : idConsistent st)
    (h2 : kst.idStore id2 = some r2) (hkid : kvIdConsistent kst) :
    ((st.deleteKey id1).2 = true ∧
      (st.deleteKey id1).1.getKeyById id1 = none ∧
      (st.deleteKey id1).1.getKeyByValue r1.key = none ∧
      (∀ q, q ∈ (st.deleteKey id1).1.getKeysByownerId r1.ownerId →
        q.id ≠ id1) ∧
      (st.deleteKey id1).1.rateLimits id1 = none ∧
      ((st.deleteKey id1).1.deleteKey id1).2 = false) ∧
    ((kst.deleteKey id2).2 = true ∧
      (kst.deleteKey id2).1.getKeyById id2 = none ∧
      (kst.deleteKey id2).1.getKeyByValue r2.key = none ∧
      (∀ q, q ∈ (kst.deleteKey id2).1.getKeysByownerId r2.ownerId →
        q.id ≠ id2) ∧
      (kst.deleteKey id2).1.rateStore id2 = none ∧
      ((kst.deleteKey id2).1.deleteKey id2).2 = false) := by
  constructor
  · refine ⟨?_, ?_, ?_, ?_, ?_, ?_⟩
    · simp [MemoryAdapter.deleteKey, h1]
    · simp [MemoryAdapter.deleteKey, h1, MemoryAdapter.getKeyById, mapDel]
    · simp [MemoryAdapter.deleteKey, h1, MemoryAdapter.getKeyByValue, mapDel]
    · intro q hq
      cases hown : st.ownerIdToKeyIds r1.ownerId with
      | none =>
        simp [MemoryAdapter.deleteKey, h1, MemoryAdapter.getKeysByownerId,
          hown] at hq
      | some s =>
        by_cases hemp : (setErase s id1).isEmpty
        · simp [MemoryAdapter.deleteKey, h1, MemoryAdapter.getKeysByownerId,
            hown, hemp, mapDel] at hq
        · have hset : (st.deleteKey id1).1.ownerIdToKeyIds r1.ownerId =
              some (setErase s id1) := by
            simp [MemoryAdapter.deleteKey, h1, hown, hemp, mapSet]
          have hkb : (st.deleteKey id1).1.keysById =
              mapDel st.keysById id1 := by
            simp [MemoryAdapter.deleteKey, h1]
          simp only [MemoryAdapter.getKeysByownerId, hset, hkb] at hq
          rw [List.mem_filterMap] at hq
          obtain ⟨j, hj, hjq⟩ := hq
          have hjne : j ≠ id1 := by
            simp [setErase, List.mem_filter] at hj
            exact hj.2
          rw [mapDel_ne _ _ _ hjne] at hjq
          rw [hid j q hjq]
          exact hjne
    · simp [MemoryAdapter.deleteKey, h1, mapDel]
    · simp [MemoryAdapter.deleteKey, h1, mapDel]
  · refine ⟨?_, ?_, ?_, ?_, ?_, ?_⟩
    · simp [KvAdapter.deleteKey, h2]
    · simp [KvAdapter.deleteKey, h2, KvAdapter.getKeyById, mapDel]
    · simp [KvAdapter.deleteKey, h2, KvAdapter.getKeyByValue, mapDel]
    · intro q hq
      have hset : (kst.deleteKey id2).1.ownerStore r2.ownerId =
          some (setErase (dedupSet ((kst.ownerStore r2.ownerId).getD []))
            id2) := by
        simp [KvAdapter.deleteKey, h2, mapSet]
      have hkb : (kst.deleteKey id2).1.idStore = mapDel kst.idStore id2 := by
        simp [KvAdapter.deleteKey, h2]
      simp only [KvAdapter.getKeysByownerId, hset, hkb,
        Option.getD_some] at hq
      rw [List.mem_filterMap] at hq
      obtain ⟨j, hj, hjq⟩ := hq
      have hjne : j ≠ id2 := by
        simp [setErase, List.mem_filter] at hj
        exact hj.2
      rw [mapDel_ne _ _ _ hjne] at hjq
      rw [hkid j q hjq]
      exact hjne
    · simp [KvAdapter.deleteKey, h2, mapDel]
    · simp [KvAdapter.deleteKey, h2, mapDel]

theorem exStRate_keysById_eq (i : String) :
    exStRate.keysById i = if i = "id-1" then some rec1 else none :=
  exSt_keysById_eq i

theorem exStRate_idConsistent : idConsistent exStRate :=
  exSt_idConsistent

theorem exKv_idStore_eq (i : String) :
    exKv.idStore i = if i = "id-1" then some rec1 else none := rfl

theorem exKv_idConsistent : kvIdConsistent exKv := by
  intro i r h
  rw [exKv_idStore_eq] at h
  split at h
  · cases h
    subst i
    rfl
  · cases h

/-- C7 witness: deleting the fixture record (with live rate limit state)
from the memory adapter and from the KV adapter purges everything, and a
second delete returns false. -/
theorem deleteKey_purges_witness :
    (((exStRate.deleteKey "id-1").2 = true ∧
      (exStRate.deleteKey "id-1").1.getKeyById "id-1" = none ∧
      (exStRate.deleteKey "id-1").1.getKeyByValue rec1.key = none ∧
      (∀ q, q ∈ (exStRate.deleteKey "id-1").1.getKeysByownerId rec1.ownerId →
        q.id ≠ "id-1") ∧
      (exStRate.deleteKey "id-1").1.rateLimits "id-1" = none ∧
      ((exStRate.deleteKey "id-1").1.deleteKey "id-1").2 = false) ∧
    ((exKv.deleteKey "id-1").2 = true ∧
      (exKv.deleteKey "id-1").1.getKeyById "id-1" = none ∧
      (exKv.deleteKey "id-1").1.getKeyByValue rec1.key = none ∧
      (∀ q, q ∈ (exKv.deleteKey "id-1").1.getKeysByownerId rec1.ownerId →
        q.id ≠ "id-1") ∧
      (exKv.deleteKey "id-1").1.rateStore "id-1" = none ∧
      ((exKv.deleteKey "id-1").1.deleteKey "id-1").2 = false)) :=
  deleteKey_purges exStRate exKv "id-1" "id-1" rec1 rec1
    (by rw [exStRate_keysById_eq]; rfl) exStRate_idConsistent
    (by rw [exKv_idStore_eq]; rfl) exKv_idConsistent

/-- C8 (amended): createKey, getKeys, getKeyById, updateKey and deleteKey
throw on a missing required argument, but validateKey with an empty
secret returns null and checkRateLimit with an empty id returns false —
sentinel results, not thrown errors. -/
theorem empty_argument_behavior (cfg : RateLimitConfig) :
    (∀ (st : MemoryAdapter) nm p rl e md gk gi now,
      ApiKeyManager.createKey (memMgr cfg) st "" nm p rl e md gk gi now =
        Except.error "Owner Id is required") ∧
    (∀ (st : MemoryAdapter) o p rl e md gk gi now, o ≠ "" →
      ApiKeyManager.createKey (memMgr cfg) st o "" p rl e md gk gi now =
        Except.error "API key name is required") ∧
    (∀ (st : MemoryAdapter) inc,
      ApiKeyManager.getKeys (memMgr cfg) st "" inc =
        Except.error "Owner Id is required") ∧
    (∀ (st : MemoryAdapter) o,
      ApiKeyManager.getKeyById (memMgr cfg) st "" o =
        Except.error "API key ID is required") ∧
    (∀ (st : MemoryAdapter) o u,
      ApiKeyManager.updateKey (memMgr cfg) st "" o u =
        Except.error "API key ID is required") ∧
    (∀ (st : MemoryAdapter) i u, i ≠ "" →
      ApiKeyManager.updateKey (memMgr cfg) st i "" u =
        Except.error "Owner Id is required") ∧
    (∀ (st : MemoryAdapter) o,
      ApiKeyManager.deleteKey (memMgr cfg) st "" o =
        Except.error "API key ID is required") ∧
    (∀ (st : MemoryAdapter) i, i ≠ "" →
      ApiKeyManager.deleteKey (memMgr cfg) st i "" =
        Except.error "Owner Id is required") ∧
    (∀ (st : MemoryAdapter) now now2,
      ApiKeyManager.validateKey (memMgr cfg) st "" now now2 =
        Except.ok (st, none)) ∧
    (∀ (st : MemoryAdapter) ov now,
      ApiKeyManager.checkRateLimit (memMgr cfg) st "" ov now =
        Except.ok (st, false)) := by
  refine ⟨?_, ?_, ?_, ?_, ?_, ?_, ?_, ?_, ?_, ?_⟩
  · intro st nm p rl e md gk gi now
    rfl
  · intro st o p rl e md gk gi now ho
    simp [ApiKeyManager.createKey, ho]
  · intro st inc
    rfl
  · intro st o
    rfl
  · intro st o u
    rfl
  · intro st i u hi
    simp [ApiKeyManager.updateKey, hi]
  · intro st o
    rfl
  · intro st i hi
    simp [ApiKeyManager.deleteKey, hi]
  · intro st now now2
    rfl
  · intro st ov now
    rfl

/-- C8 counterexample: with an empty secret, validateKey does not throw;
it returns the null sentinel, and checkRateLimit with an empty id returns
the false sentinel. -/
theorem empty_argument_sentinels_cex :
    ApiKeyManager.validateKey (memMgr ⟨1000, 1⟩) emptyMemory "" 0 0 =
      Except.ok (emptyMemory, none) ∧
    ApiKeyManager.checkRateLimit (memMgr ⟨1000, 1⟩) emptyMemory "" none 0 =
      Except.ok (emptyMemory, false) := ⟨rfl, rfl⟩

/-- C8 witness: the empty-argument behavior at concrete calls. -/
theorem empty_argument_behavior_witness :
    ApiKeyManager.createKey (memMgr ⟨1000, 1⟩) emptyMemory "o" "" [] none
      none [] "gk" "gi" 0 = Except.error "API key name is required" ∧
    ApiKeyManager.updateKey (memMgr ⟨1000, 1⟩) emptyMemory "i" "" {} =
      Except.error "Owner Id is required" ∧
    ApiKeyManager.deleteKey (memMgr ⟨1000, 1⟩) emptyMemory "i" "" =
      Except.error "Owner Id is required" ∧
    ApiKeyManager.validateKey (memMgr ⟨1000, 1⟩) emptyMemory "" 3 4 =
      Except.ok (emptyMemory, none) :=
  ⟨(empty_argument_behavior ⟨1000, 1⟩).2.1 emptyMemory "o" [] none none []
      "gk" "gi" 0 (by decide),
   (empty_argument_behavior ⟨1000, 1⟩).2.2.2.2.2.1 emptyMemory "i" {}
      (by decide),
   (empty_argument_behavior ⟨1000, 1⟩).2.2.2.2.2.2.2.1 emptyMemory "i"
      (by decide),
   (empty_argument_behavior ⟨1000, 1⟩).2.2.2.2.2.2.2.2.1 emptyMemory 3 4⟩

/-- C10: saving a record whose id exists with a different secret keeps
the old secret index entry, so both the old and the new secret resolve to
the newly saved record. -/
theorem saveKey_stale_secret (st : MemoryAdapter) (rOld rNew : ApiKeyRecord)
    (hir : st.keysById rNew.id = some rOld)
    (hidx : st.keyValueToId rOld.key = some rNew.id)
    (hkey : rOld.key ≠ rNew.key) (hidne : rNew.id ≠ "") :
    (st.saveKey rNew).keyValueToId rOld.key = some rNew.id ∧
    (st.saveKey rNew).getKeyByValue rOld.key = some rNew ∧
    (st.saveKey rNew).getKeyByValue rNew.key = some rNew := by
  have hold : (st.saveKey rNew).keyValueToId rOld.key = some rNew.id := by
    show mapSet st.keyValueToId rNew.key rNew.id rOld.key = some rNew.id
    rw [mapSet_ne _ _ _ _ hkey]
    exact hidx
  refine ⟨hold, ?_, ?_⟩
  · rw [MemoryAdapter.getKeyByValue]
    rw [hold]
    simp only [hidne, if_neg hidne]
    show mapSet st.keysById rNew.id rNew rNew.id = some rNew
    exact mapSet_self _ _ _
  · rw [MemoryAdapter.getKeyByValue]
    have hnew : (st.saveKey rNew).keyValueToId rNew.key = some rNew.id := by
      show mapSet st.keyValueToId rNew.key rNew.id rNew.key = some rNew.id
      exact mapSet_self _ _ _
    rw [hnew]
    simp only [if_neg hidne]
    show mapSet st.keysById rNew.id rNew rNew.id = some rNew
    exact mapSet_self _ _ _

/-- C10 witness: reissuing the fixture id under a new secret leaves the
old secret resolving to the new record. -/
theorem saveKey_stale_secret_witness :
    (exSt.saveKey rec1NewSecret).keyValueToId rec1.key =
      some rec1NewSecret.id ∧
    (exSt.saveKey rec1NewSecret).getKeyByValue rec1.key =
      some rec1NewSecret ∧
    (exSt.saveKey rec1NewSecret).getKeyByValue rec1NewSecret.key =
      some rec1NewSecret :=
  saveKey_stale_secret exSt rec1 rec1NewSecret
    (by rw [exSt_keysById_eq]; rfl)
    (by rw [exSt_keyValueToId_eq]; rfl)
    (by decide) (by decide)
